import Mathlib

/-!
Verification of the `cond!` macro (src/src/lib.rs) against its specification.

The macro is
  ($($condition:expr => $value:expr),* $(, _ => $default:expr)? $(,)?) => {
      match () {
          $(() if $condition => $value,)*
          () => ($($default)?),
      }
  };

We embed it shallowly.  Rust expressions may have side effects, so an
expression of type `τ` is modelled as a state transformer `σ → τ × σ` for an
arbitrary state type `σ`; evaluating the expression threads the state, and the
state carries the side effects.  A clause `condition => value` is a pair of
such transformers; the generated code is a Rust `match` on `()` whose arms are
`() if condition => value` plus a final unguarded arm `() => (default?)`,
where the body of the final arm is the default expression when one was
supplied and the unit literal `()` otherwise.
-/

/-- A `condition => value` clause of a `cond!` invocation: the condition is a
boolean expression, the value an expression of the result type, both possibly
side-effecting (state-threading). -/
structure Clause (σ α : Type) where
  condition : σ → Bool × σ
  value : σ → α × σ

/-- One arm of the generated `match () { ... }`: the pattern `()` always
matches, so an arm is an optional guard plus a body.  `() if g => b` has
`guard = some g`; the final `() => b` arm has `guard = none`. -/
structure Arm (σ α : Type) where
  guard : Option (σ → Bool × σ)
  body : σ → α × σ

/-- Rust `match` semantics over such arms: arms are tried top to bottom; the
pattern `()` always matches, so an arm is taken when its guard is absent or
evaluates to true; the guard of each tried arm is evaluated exactly once,
threading the state.  If no arm is taken the match is a failed (non-exhaustive)
match, modelled as `none`. -/
def matchArms {σ α : Type} : List (Arm σ α) → σ → Option (α × σ)
  | [], _ => none
  | a :: rest, s =>
    match a.guard with
    | none => some (a.body s)
    | some g =>
      match g s with
      | (true, s1) => some (a.body s1)
      | (false, s1) => matchArms rest s1

/-- The arm `() if condition => value` generated for a clause. -/
def clauseArm {σ α : Type} (c : Clause σ α) : Arm σ α :=
  ⟨some c.condition, c.value⟩

/-- The expansion of `cond!`: `match () { () if c_i => v_i, ..., () => (d) }`,
where `d` is the default expression (or the unit literal when the invocation
has no default clause, see `condExpandNoDefault`). -/
def condExpand {σ α : Type} (clauses : List (Clause σ α)) (dflt : σ → α × σ)
    (s : σ) : Option (α × σ) :=
  matchArms (clauses.map clauseArm ++ [⟨none, dflt⟩]) s

/-- The unit literal `()` as an expression: no side effect, unit value.  This
is the body of the final arm when no default clause is supplied, since
`($($default)?)` expands to `()` in that case. -/
def unitExpr {σ : Type} : σ → Unit × σ := fun s => ((), s)

/-- The expansion of a `cond!` invocation with no default clause: the final
arm is `() => ()`. -/
def condExpandNoDefault {σ : Type} (clauses : List (Clause σ Unit))
    (s : σ) : Option (Unit × σ) :=
  condExpand clauses unitExpr s

/-- Modelled from the spec: the reference first-match conditional chain
(`if c1 { v1 } else if c2 { v2 } ... else { d }`), written as a direct
recursion: evaluate the first condition; if it is true evaluate its value,
otherwise continue with the remaining clauses; with no clauses left, evaluate
the default. -/
def ifChain {σ α : Type} : List (Clause σ α) → (σ → α × σ) → σ → α × σ
  | [], dflt, s => dflt s
  | c :: rest, dflt, s =>
    match c.condition s with
    | (true, s1) => c.value s1
    | (false, s1) => ifChain rest dflt s1

/-- Evaluate the conditions of a clause list in source order, threading the
state, requiring every condition to come out false; returns the resulting
state, or `none` if some condition evaluates true.  Each condition in the list
is applied exactly once, left to right. -/
def runFalse {σ α : Type} : List (Clause σ α) → σ → Option σ
  | [], s => some s
  | c :: rest, s =>
    match c.condition s with
    | (true, _) => none
    | (false, s1) => runFalse rest s1

/- Helper lemmas about the expansion. -/

lemma condExpand_nil {σ α : Type} (dflt : σ → α × σ) (s : σ) :
    condExpand [] dflt s = some (dflt s) := rfl

lemma condExpand_cons_true {σ α : Type} (c : Clause σ α)
    (rest : List (Clause σ α)) (dflt : σ → α × σ) (s s1 : σ)
    (h : c.condition s = (true, s1)) :
    condExpand (c :: rest) dflt s = some (c.value s1) := by
  simp [condExpand, matchArms, clauseArm, h]

lemma condExpand_cons_false {σ α : Type} (c : Clause σ α)
    (rest : List (Clause σ α)) (dflt : σ → α × σ) (s s1 : σ)
    (h : c.condition s = (false, s1)) :
    condExpand (c :: rest) dflt s = condExpand rest dflt s1 := by
  simp [condExpand, matchArms, clauseArm, h]

lemma runFalse_nil {σ α : Type} (s : σ) :
    runFalse ([] : List (Clause σ α)) s = some s := rfl

lemma runFalse_cons_true {σ α : Type} (c : Clause σ α)
    (rest : List (Clause σ α)) (s s1 : σ) (h : c.condition s = (true, s1)) :
    runFalse (c :: rest) s = none := by
  simp [runFalse, h]

lemma runFalse_cons_false {σ α : Type} (c : Clause σ α)
    (rest : List (Clause σ α)) (s s1 : σ) (h : c.condition s = (false, s1)) :
    runFalse (c :: rest) s = runFalse rest s1 := by
  simp [runFalse, h]

/-- Skipping a prefix of clauses whose conditions all evaluate false: the
expansion continues with the remaining clauses in the threaded state. -/
lemma condExpand_skip {σ α : Type} (pre rest : List (Clause σ α))
    (dflt : σ → α × σ) (s s' : σ) (hpre : runFalse pre s = some s') :
    condExpand (pre ++ rest) dflt s = condExpand rest dflt s' := by
  induction pre generalizing s with
  | nil =>
      rw [runFalse_nil] at hpre
      cases hpre
      rfl
  | cons c pre ih =>
      cases hcs : c.condition s with
      | mk b s1 =>
        cases b with
        | true =>
            rw [runFalse_cons_true c pre s s1 hcs] at hpre
            cases hpre
        | false =>
            rw [runFalse_cons_false c pre s s1 hcs] at hpre
            rw [List.cons_append, condExpand_cons_false c (pre ++ rest) dflt s s1 hcs]
            exact ih s1 hpre

/-- A clause whose condition evaluates true is taken: the expansion returns
its value, evaluated in the state left by the condition. -/
lemma condExpand_hit {σ α : Type} (c : Clause σ α) (rest : List (Clause σ α))
    (dflt : σ → α × σ) (s : σ) (h : (c.condition s).1 = true) :
    condExpand (c :: rest) dflt s = some (c.value (c.condition s).2) := by
  have hcs : c.condition s = (true, (c.condition s).2) := by
    rw [← h]
  exact condExpand_cons_true c rest dflt s (c.condition s).2 hcs

/-!
Syntax model.  `macro_rules` operates on token trees; a braces-delimited
block is a single token tree.  We model the token trees a `cond!` invocation
can contain: atomic tokens (identifiers, literals, operators — identified by
a numeric code), the comma separator, the `=>` arrow, the `_` wildcard that
marks the default clause, and a braces-delimited group.  The matcher for the
rule `$($condition:expr => $value:expr),* $(, _ => $default:expr)? $(,)?` is
modelled below; an `expr` fragment is matched as a maximal nonempty run of
token trees containing no top-level `,`, `=>` or bare `_` (none of which can
continue an expression at top level in Rust).
-/

/-- A token tree of a `cond!` invocation. -/
inductive TT where
  | tok : Nat → TT
  | comma : TT
  | arrow : TT
  | underscore : TT
  | block : List TT → TT

/-- Token trees that can be part of an `expr` fragment at top level: anything
except the clause separator `,`, the arrow `=>` and the bare wildcard `_`. -/
def isExprTT : TT → Bool
  | TT.comma => false
  | TT.arrow => false
  | TT.underscore => false
  | _ => true

/-- Split off the maximal leading run of expression token trees. -/
def takeExpr : List TT → List TT × List TT
  | [] => ([], [])
  | t :: ts =>
    if isExprTT t then
      ((t :: (takeExpr ts).1), (takeExpr ts).2)
    else
      ([], t :: ts)

/-- Match the repetition `$($condition:expr => $value:expr),*`: a list of
clauses separated by commas.  Returns the matched (condition tokens, value
tokens) pairs and the unconsumed remainder (which still begins with the
separating comma when the repetition stops before one, so that the optional
`, _ => $default` part can consume it).  The fuel argument only bounds the
recursion; every use supplies more fuel than tokens. -/
def parseClausesAux : Nat → List TT → Option (List (List TT × List TT) × List TT)
  | 0, _ => none
  | Nat.succ fuel, ts =>
    match takeExpr ts with
    | ([], _) => some ([], ts)
    | (c0 :: cr, rest1) =>
      match rest1 with
      | TT.arrow :: rest2 =>
        match takeExpr rest2 with
        | ([], _) => none
        | (v0 :: vr, rest3) =>
          match rest3 with
          | TT.comma :: rest4 =>
            match takeExpr rest4 with
            | ([], _) => some ([(c0 :: cr, v0 :: vr)], rest3)
            | (_ :: _, _) =>
              match parseClausesAux fuel rest4 with
              | none => none
              | some (cls, rest5) => some ((c0 :: cr, v0 :: vr) :: cls, rest5)
          | _ => some ([(c0 :: cr, v0 :: vr)], rest3)
      | _ => none

def parseClauses (ts : List TT) : Option (List (List TT × List TT) × List TT) :=
  parseClausesAux (ts.length + 1) ts

/-- Match the tail `$(, _ => $default:expr)? $(,)?` against the remainder left
by the clause repetition: nothing, a lone trailing comma, or a comma followed
by `_ => expr` and an optional trailing comma.  Anything else fails to match
the rule. -/
def parseDefault : List TT → Option (Option (List TT))
  | [] => some none
  | [TT.comma] => some none
  | TT.comma :: TT.underscore :: TT.arrow :: rest =>
    (match takeExpr rest with
     | ([], _) => none
     | (d0 :: dr, rest2) =>
       match rest2 with
       | [] => some (some (d0 :: dr))
       | [TT.comma] => some (some (d0 :: dr))
       | _ => none)
  | _ => none

/-- The matcher of the single rule of `cond!`: the clause repetition followed
by the optional default part; the whole token stream must be consumed.
Returns the matched clauses and the optional default expression tokens, or
`none` when the invocation does not match the rule (a compile-time error). -/
def condParse (ts : List TT) : Option (List (List TT × List TT) × Option (List TT)) :=
  match parseClauses ts with
  | none => none
  | some (cls, rest) =>
    match parseDefault rest with
    | none => none
    | some d => some (cls, d)

/-!
Instrumented clauses for observing evaluation order.  The state is a log of
condition indices: a probe clause's condition appends the clause's index to
the log and returns a fixed boolean, so the final log records exactly which
conditions were evaluated, how often, and in which order.
-/

/-- A clause whose condition logs the index `i` and returns `b`. -/
def probeClause (α : Type) (i : Nat) (b : Bool)
    (v : List Nat → α × List Nat) : Clause (List Nat) α :=
  ⟨fun l => (b, l ++ [i]), v⟩

/-- Probe clauses for the booleans `bs`, indexed from `k`. -/
def probes (α : Type) (v : Nat → List Nat → α × List Nat) :
    List Bool → Nat → List (Clause (List Nat) α)
  | [], _ => []
  | b :: bs, k => probeClause α k b (v k) :: probes α v bs (k + 1)

/-- The indices `k, k+1, ..., k+n-1`. -/
def probeLog : Nat → Nat → List Nat
  | _, 0 => []
  | k, Nat.succ n => k :: probeLog (k + 1) n

lemma runFalse_probes (α : Type) (v : Nat → List Nat → α × List Nat)
    (bs : List Bool) (hbs : ∀ b ∈ bs, b = false) :
    ∀ (k : Nat) (l : List Nat),
      runFalse (probes α v bs k) l = some (l ++ probeLog k bs.length) := by
  induction bs with
  | nil => intro k l; simp [probes, probeLog, runFalse]
  | cons b bs ih =>
      intro k l
      have hb : b = false := hbs b (List.mem_cons_self b bs)
      have hrest : ∀ x ∈ bs, x = false := fun x hx => hbs x (List.mem_cons_of_mem b hx)
      subst hb
      have hcond : (probeClause α k false (v k)).condition l = (false, l ++ [k]) := rfl
      rw [probes, runFalse_cons_false _ _ _ _ hcond, ih hrest (k + 1) (l ++ [k])]
      simp [probeLog, List.append_assoc]

lemma probeLog_shift : ∀ (n k : Nat), probeLog k (n + 1) = probeLog k n ++ [k + n] := by
  intro n
  induction n with
  | zero => intro k; simp [probeLog]
  | succ n ih =>
      intro k
      have h1 : probeLog k (n + 2) = k :: probeLog (k + 1) (n + 1) := rfl
      rw [h1, ih (k + 1)]
      have h2 : probeLog k (n + 1) = k :: probeLog (k + 1) n := rfl
      rw [h2]
      simp only [List.cons_append]
      have h3 : k + 1 + n = k + (n + 1) := by omega
      rw [h3]

lemma probeLog_eq_range : ∀ n : Nat, probeLog 0 n = List.range n := by
  intro n
  induction n with
  | zero => rfl
  | succ n ih => rw [probeLog_shift, ih, List.range_succ]; simp

/-!
Concrete clauses and expressions used by the witnesses and counterexamples.
All are side-effect free over the trivial state `Unit` unless noted.
-/

def wFalse : Clause Unit Nat := ⟨fun s => (false, s), fun s => (1, s)⟩

def wTrue2 : Clause Unit Nat := ⟨fun s => (true, s), fun s => (2, s)⟩

def wTrue3 : Clause Unit Nat := ⟨fun s => (true, s), fun s => (3, s)⟩

def wDflt : Unit → Nat × Unit := fun s => (0, s)

def wDflt9 : Unit → Nat × Unit := fun s => (9, s)

def uFalse : Clause Unit Unit := ⟨fun s => (false, s), fun s => ((), s)⟩

/-- Two clauses whose conditions are both true at `()` and whose values are
written differently but denote the same result value `7`. -/
def swapA : Clause Unit Nat := ⟨fun s => (decide (0 < 1), s), fun s => (3 + 4, s)⟩

def swapB : Clause Unit Nat := ⟨fun s => (true, s), fun s => (7, s)⟩

def swapT8 : Clause Unit Nat := ⟨fun s => (true, s), fun s => (8, s)⟩

def swapT9 : Clause Unit Nat := ⟨fun s => (true, s), fun s => (9, s)⟩

/- The literal example of the macro's documentation: a = 4, b = 5. -/

def aVal : Nat := 4

def bVal : Nat := 5

def lessClause : Clause Unit String :=
  ⟨fun s => (decide (aVal < bVal), s), fun s => ("less", s)⟩

def greaterClause : Clause Unit String :=
  ⟨fun s => (decide (aVal > bVal), s), fun s => ("greater", s)⟩

def equalDflt : Unit → String × Unit := fun s => ("equal", s)

/- Token streams for the syntax claims.  Codes: 0 = `x`, 1 = `<=`, 2 = `4`,
3 = `>=`, 4 = `5`; blocks stand for the two println statement blocks of the
documentation's compile_fail example. -/

def tokX : TT := TT.tok 0

def tokLe : TT := TT.tok 1

def tok4 : TT := TT.tok 2

def tokGe : TT := TT.tok 3

def tok5 : TT := TT.tok 4

def dTok : TT := TT.tok 9

def blockA : TT := TT.block [TT.tok 20]

def blockB : TT := TT.block [TT.tok 21]

/-- The doc comment's compile_fail example: two block-valued clauses with no
separator between them. -/
def caveatNoComma : List TT :=
  [tokX, tokLe, tok4, TT.arrow, blockA, tokX, tokGe, tok5, TT.arrow, blockB]

/-- The same invocation with the mandatory comma inserted after the first
block-valued clause. -/
def caveatWithComma : List TT :=
  [tokX, tokLe, tok4, TT.arrow, blockA, TT.comma, tokX, tokGe, tok5, TT.arrow, blockB]

def probeVal : Nat → List Nat → Nat × List Nat := fun k l => (k, l)

def probeDflt : List Nat → Nat × List Nat := fun l => (99, l)

/-!
The claims.
-/

/-- Claim C1 (first-match-wins): if every condition before clause `c`
evaluates false (threading the state left to right) and `c`'s condition then
evaluates true, the dispatch expression produced by `cond!` evaluates to `c`'s
result, evaluated in the state left by `c`'s condition — whatever clauses
follow and whatever the default is. -/
theorem cond_first_match_wins {σ α : Type} (pre : List (Clause σ α))
    (c : Clause σ α) (rest : List (Clause σ α)) (dflt : σ → α × σ) (s s' : σ)
    (hpre : runFalse pre s = some s') (hc : (c.condition s').1 = true) :
    condExpand (pre ++ c :: rest) dflt s = some (c.value (c.condition s').2) := by
  rw [condExpand_skip pre (c :: rest) dflt s s' hpre]
  exact condExpand_hit c rest dflt s' hc

theorem cond_first_match_wins_witness :
    runFalse [wFalse] () = some () ∧ (wTrue2.condition ()).1 = true ∧
    condExpand ([wFalse] ++ wTrue2 :: [wTrue3]) wDflt () = some (2, ()) :=
  ⟨rfl, rfl, cond_first_match_wins [wFalse] wTrue2 [wTrue3] wDflt () () rfl rfl⟩

/-- Claim C2 (evaluation order and short-circuit): conditions are evaluated
left to right, each at most once (the hypothesis threads each condition of the
skipped prefix exactly once, in order), evaluation stops at the first true
condition, and the outcome — result value and final state, hence every side
effect — is identical for any clauses and default placed after the first true
condition: skipped clauses and the default are never evaluated. -/
theorem cond_short_circuit {σ α : Type} (pre : List (Clause σ α))
    (c : Clause σ α) (rest₁ rest₂ : List (Clause σ α)) (d₁ d₂ : σ → α × σ)
    (s s' : σ) (hpre : runFalse pre s = some s')
    (hc : (c.condition s').1 = true) :
    condExpand (pre ++ c :: rest₁) d₁ s = some (c.value (c.condition s').2) ∧
    condExpand (pre ++ c :: rest₁) d₁ s = condExpand (pre ++ c :: rest₂) d₂ s := by
  have h₁ : condExpand (pre ++ c :: rest₁) d₁ s = some (c.value (c.condition s').2) := by
    rw [condExpand_skip pre (c :: rest₁) d₁ s s' hpre]
    exact condExpand_hit c rest₁ d₁ s' hc
  have h₂ : condExpand (pre ++ c :: rest₂) d₂ s = some (c.value (c.condition s').2) := by
    rw [condExpand_skip pre (c :: rest₂) d₂ s s' hpre]
    exact condExpand_hit c rest₂ d₂ s' hc
  exact ⟨h₁, h₁.trans h₂.symm⟩

theorem cond_short_circuit_witness :
    runFalse [wFalse] () = some () ∧ (wTrue2.condition ()).1 = true ∧
    (condExpand ([wFalse] ++ wTrue2 :: [wTrue3]) wDflt () = some (2, ()) ∧
     condExpand ([wFalse] ++ wTrue2 :: [wTrue3]) wDflt () =
       condExpand ([wFalse] ++ wTrue2 :: []) wDflt9 ()) :=
  ⟨rfl, rfl, cond_short_circuit [wFalse] wTrue2 [wTrue3] [] wDflt wDflt9 () () rfl rfl⟩

/-- Claim C3 (default fallback): when every condition of the clause list
evaluates false, the dispatch expression evaluates to the default's result,
evaluated in the state threaded through all the conditions. -/
theorem cond_default_fallback {σ α : Type} (clauses : List (Clause σ α))
    (dflt : σ → α × σ) (s s' : σ) (h : runFalse clauses s = some s') :
    condExpand clauses dflt s = some (dflt s') := by
  have h2 := condExpand_skip clauses [] dflt s s' h
  rw [List.append_nil] at h2
  rw [h2]
  exact condExpand_nil dflt s'

theorem cond_default_fallback_witness :
    runFalse [wFalse] () = some () ∧ condExpand [wFalse] wDflt () = some (0, ()) :=
  ⟨rfl, cond_default_fallback [wFalse] wDflt () () rfl⟩

/-- Claim C4 (no-default unit case): with no default clause, when every
condition evaluates false the dispatch expression evaluates the final
`() => ()` arm and produces the unit value, with no failure (the match result
is `some`, never the failed-match `none`). -/
theorem cond_no_default_unit {σ : Type} (clauses : List (Clause σ Unit))
    (s s' : σ) (h : runFalse clauses s = some s') :
    condExpandNoDefault clauses s = some ((), s') := by
  show condExpand clauses unitExpr s = some ((), s')
  have h2 := condExpand_skip clauses [] unitExpr s s' h
  rw [List.append_nil] at h2
  rw [h2]
  rfl

theorem cond_no_default_unit_witness :
    runFalse [uFalse] () = some () ∧ condExpandNoDefault [uFalse] () = some ((), ()) :=
  ⟨rfl, cond_no_default_unit [uFalse] () () rfl⟩

/-- Claim C5 (equivalence to a conditional chain): on every clause list,
default and start state, the `match`-on-unit-with-guards expression generated
by `cond!` succeeds and produces exactly the value and final state of the
reference first-match if / else-if chain over the same clauses and default. -/
theorem cond_equiv_if_chain {σ α : Type} (clauses : List (Clause σ α))
    (dflt : σ → α × σ) (s : σ) :
    condExpand clauses dflt s = some (ifChain clauses dflt s) := by
  induction clauses generalizing s with
  | nil => rfl
  | cons c rest ih =>
      cases hcs : c.condition s with
      | mk b s1 =>
        cases b with
        | true =>
            rw [condExpand_cons_true c rest dflt s s1 hcs]
            simp [ifChain, hcs]
        | false =>
            rw [condExpand_cons_false c rest dflt s s1 hcs, ih s1]
            simp [ifChain, hcs]

/-- Claim C6 counterexample: two clauses whose conditions are both true at the
input `()`, yet swapping them does not change the result the dispatch
expression returns — both orders return the value `7` (and the same final
state), because the two clauses' results denote the same value.  The claim as
stated ("swapping must change which result is returned") is therefore false. -/
theorem cond_swap_counterexample :
    (swapA.condition ()).1 = true ∧ (swapB.condition ()).1 = true ∧
    condExpand [swapA, swapB] wDflt () = condExpand [swapB, swapA] wDflt () :=
  ⟨rfl, rfl, rfl⟩

/-- Claim C6, amended: for two adjacent clauses whose conditions both evaluate
true at the point reached, each order returns the first-listed clause's
result — swapping changes which clause is selected — and consequently the
returned outcome changes whenever the two clauses' results differ there. -/
theorem cond_swap_selects_other_clause {σ α : Type} (pre : List (Clause σ α))
    (c₁ c₂ : Clause σ α) (rest : List (Clause σ α)) (dflt : σ → α × σ)
    (s s' : σ) (hpre : runFalse pre s = some s')
    (h₁ : (c₁.condition s').1 = true) (h₂ : (c₂.condition s').1 = true) :
    condExpand (pre ++ c₁ :: c₂ :: rest) dflt s = some (c₁.value (c₁.condition s').2) ∧
    condExpand (pre ++ c₂ :: c₁ :: rest) dflt s = some (c₂.value (c₂.condition s').2) ∧
    (c₁.value (c₁.condition s').2 ≠ c₂.value (c₂.condition s').2 →
      condExpand (pre ++ c₁ :: c₂ :: rest) dflt s ≠
        condExpand (pre ++ c₂ :: c₁ :: rest) dflt s) := by
  have ha : condExpand (pre ++ c₁ :: c₂ :: rest) dflt s = some (c₁.value (c₁.condition s').2) := by
    rw [condExpand_skip pre (c₁ :: c₂ :: rest) dflt s s' hpre]
    exact condExpand_hit c₁ (c₂ :: rest) dflt s' h₁
  have hb : condExpand (pre ++ c₂ :: c₁ :: rest) dflt s = some (c₂.value (c₂.condition s').2) := by
    rw [condExpand_skip pre (c₂ :: c₁ :: rest) dflt s s' hpre]
    exact condExpand_hit c₂ (c₁ :: rest) dflt s' h₂
  refine ⟨ha, hb, fun hne heq => hne ?_⟩
  rw [ha, hb] at heq
  exact Option.some.inj heq

theorem cond_swap_selects_other_clause_witness :
    runFalse ([] : List (Clause Unit Nat)) () = some () ∧
    (swapT8.condition ()).1 = true ∧ (swapT9.condition ()).1 = true ∧
    (condExpand [swapT8, swapT9] wDflt () = some (8, ()) ∧
     condExpand [swapT9, swapT8] wDflt () = some (9, ()) ∧
     ((((8 : Nat), ()) ≠ ((9 : Nat), ())) →
       condExpand [swapT8, swapT9] wDflt () ≠ condExpand [swapT9, swapT8] wDflt ())) :=
  ⟨rfl, rfl, rfl,
    cond_swap_selects_other_clause [] swapT8 swapT9 [] wDflt () () rfl rfl rfl⟩

/-- Claim C7 counterexample: the invocation consisting of zero conditional
clauses followed by a default clause written in the documented form, the token
stream `_ => e`, does not match the macro's rule (the optional default part of
the pattern begins with a literal comma, and `_` alone is not an `expr`
fragment), so this input shape is rejected at compile time rather than
accepted. -/
theorem cond_zero_clause_default_counterexample :
    condParse [TT.underscore, TT.arrow, dTok] = none := rfl

/-- Claim C7, amended: an invocation of zero conditional clauses and one
default clause is accepted only when the default is preceded by the clause
separator — the token stream `, _ => e` matches the rule with zero clauses and
default `e` — and the dispatch expression it produces evaluates to the
default's result; the separator-free form `_ => e` is rejected. -/
theorem cond_zero_clause_default_amended :
    condParse [TT.comma, TT.underscore, TT.arrow, dTok] = some ([], some [dTok]) ∧
    ∀ (σ α : Type) (dflt : σ → α × σ) (s : σ),
      condExpand ([] : List (Clause σ α)) dflt s = some (dflt s) :=
  ⟨rfl, fun _ _ _ _ => rfl⟩

/-- Claim C8 (mandatory inter-clause separator): the documentation's
compile_fail example — two block-valued clauses with no comma between them —
fails to match the macro's rule, while the identical invocation with the comma
inserted matches and yields the two clauses; so a clause whose result is a
block must still be followed by the separator. -/
theorem cond_separator_mandatory :
    condParse caveatNoComma = none ∧
    condParse caveatWithComma =
      some ([([tokX, tokLe, tok4], [blockA]), ([tokX, tokGe, tok5], [blockB])], none) :=
  ⟨rfl, rfl⟩

/-- Claim C9 (literal example): with a = 4 and b = 5, the invocation with
clauses `a < b => "less"`, `a > b => "greater"` and default `_ => "equal"`
evaluates to `"less"`. -/
theorem cond_literal_example :
    condExpand [lessClause, greaterClause] equalDflt () = some ("less", ()) := rfl

/-- Claim C10 (all conditions run before the fallback): on instrumented
clauses whose conditions log their index, if every condition is false the
dispatch expression evaluates the default in the state holding the log
`[0, 1, ..., n-1]` — every condition was evaluated exactly once, in source
order, and all their side effects happened before the default's result was
produced. -/
theorem cond_conditions_before_default (α : Type)
    (v : Nat → List Nat → α × List Nat) (bs : List Bool)
    (dflt : List Nat → α × List Nat) (hbs : ∀ b ∈ bs, b = false) :
    condExpand (probes α v bs 0) dflt [] = some (dflt (List.range bs.length)) := by
  have h := runFalse_probes α v bs hbs 0 []
  rw [List.nil_append] at h
  have h2 := condExpand_skip (probes α v bs 0) [] dflt [] (probeLog 0 bs.length) h
  rw [List.append_nil] at h2
  rw [h2, condExpand_nil, probeLog_eq_range]

theorem cond_conditions_before_default_witness :
    (∀ b ∈ ([false, false] : List Bool), b = false) ∧
    condExpand (probes Nat probeVal [false, false] 0) probeDflt [] =
      some (probeDflt (List.range 2)) :=
  ⟨by decide, cond_conditions_before_default Nat probeVal [false, false] probeDflt (by decide)⟩
